import Mathlib

/-!
Shallow embedding of the DMS-Quantum password analyzer.

Two source variants are embedded:
* namespace `QuantumPasswordAnalyzer` — the class of the same name in
  `src/q-password.py` (variant A);
* namespace `QuantumAuthTool` — the class of the same name in
  `src/q-passwordv3.py` (variant B).

Modelling conventions:
* Python floats are modelled as real numbers; Python arbitrary-precision
  integers as `ℕ`, `ℤ` or `ℚ`; Python strings as `String` or `List Char`.
* Randomness (the qiskit measurement outcome, `secrets.choice`, the salted
  builtin `hash`) enters each analysis exactly once; it is passed in as an
  explicit parameter holding the sampled outcome.
* Numeric string formatting (Python format specifiers such as `.2e`) is
  abstracted as a `render : ℝ → String` parameter; every theorem below that
  touches a formatted string holds for an arbitrary rendering of the numeric
  part, which only ever contributes digit/sign/exponent characters.
-/

/-- Membership in `string.ascii_lowercase` (ASCII 97–122). -/
def isAsciiLowercaseChar (c : Char) : Bool :=
  97 ≤ c.toNat && c.toNat ≤ 122

/-- Membership in `string.ascii_uppercase` (ASCII 65–90). -/
def isAsciiUppercaseChar (c : Char) : Bool :=
  65 ≤ c.toNat && c.toNat ≤ 90

/-- Membership in `string.digits` (ASCII 48–57). -/
def isDigitCh (c : Char) : Bool :=
  48 ≤ c.toNat && c.toNat ≤ 57

/-- Membership in `string.punctuation`: the 32 ASCII punctuation characters,
codes 33–47, 58–64, 91–96 and 123–126. -/
def isPunctuationChar (c : Char) : Bool :=
  (33 ≤ c.toNat && c.toNat ≤ 47) || (58 ≤ c.toNat && c.toNat ≤ 64) ||
  (91 ≤ c.toNat && c.toNat ≤ 96) || (123 ≤ c.toNat && c.toNat ≤ 126)

/-- Membership in `string.whitespace` (space, tab, LF, VT, FF, CR). -/
def isWhitespaceChar (c : Char) : Bool :=
  (9 ≤ c.toNat && c.toNat ≤ 13) || c.toNat == 32

/-- Does `pat` occur at the head of `s`?  (Helper for the Python `in`
substring test.) -/
def leads : List Char → List Char → Bool
  | [], _ => true
  | _ :: _, [] => false
  | p :: ps, c :: cs => p == c && leads ps cs

/-- Does `pat` occur somewhere inside `s`?  (Helper for the Python `in`
substring test.) -/
def has_sub : List Char → List Char → Bool
  | [], pat => leads pat []
  | c :: t, pat => leads pat (c :: t) || has_sub t pat

/-- Python's substring test `pat in s`. -/
def strContains (s pat : String) : Bool :=
  has_sub s.toList pat.toList

/-- A substring of `t` is a substring of `r ++ t`. -/
theorem has_sub_append (r t pat : List Char) (h : has_sub t pat = true) :
    has_sub (r ++ t) pat = true := by
  induction r with
  | nil => simpa using h
  | cons c r ih =>
    simp only [List.cons_append, has_sub, Bool.or_eq_true]
    exact Or.inr ih

/-- Modelled from CPython's float semantics: converting an integer to a
double — directly (`float`, `math.sqrt`, `.2e` formatting) or as the
correctly-rounded quotient of an integer true division — raises
`OverflowError` exactly when the value being rounded is at least
`2^1024 - 2^970` (the round-to-nearest boundary above the largest finite
double `2^1024 - 2^971`); below it the conversion yields a finite double. -/
def float_overflow_threshold : ℚ :=
  2 ^ 1024 - 2 ^ 970

namespace QuantumPasswordAnalyzer

/-- Entry `lowercase` of `self.char_sets`. -/
def char_sets_lowercase : ℕ := 26

/-- Entry `uppercase` of `self.char_sets`. -/
def char_sets_uppercase : ℕ := 26

/-- Entry `digits` of `self.char_sets`. -/
def char_sets_digits : ℕ := 10

/-- Entry `symbols` of `self.char_sets` (8 symbols in this variant). -/
def char_sets_symbols : ℕ := 8

/-- The constant `self.classical_speed` (attempts per second). -/
def classical_speed : ℕ := 10 ^ 8

/-- The constant `self.quantum_speed` (attempts per second). -/
def quantum_speed : ℕ := 10 ^ 12

/-- `calculate_charset_size`: sums the cardinalities of the selected classes
(no floor is applied in this variant) and also returns the human-readable
`details` list built alongside. -/
def calculate_charset_size (use_lowercase use_uppercase use_digits use_symbols : Bool) :
    ℕ × List String :=
  let k := (cond use_lowercase char_sets_lowercase 0) +
           (cond use_uppercase char_sets_uppercase 0) +
           (cond use_digits char_sets_digits 0) +
           (cond use_symbols char_sets_symbols 0)
  let details := (cond use_lowercase ["Lowercase: +26"] []) ++
                 (cond use_uppercase ["Uppercase: +26"] []) ++
                 (cond use_digits ["Digits: +10"] []) ++
                 (cond use_symbols ["Symbols: +8"] [])
  (k, details)

/-- `calculate_classical_combinations`: `k ** n`.  The length reaching this
function is a Python `int` that may be negative (the interactive mode feeds
`int(input())` straight through), in which case Python evaluates `k ** n` as
an exact reciprocal power; `ℚ` models both cases (the float rounding of the
negative case is not modelled). -/
def calculate_classical_combinations (k : ℕ) (n : ℤ) : ℚ :=
  (k : ℚ) ^ n

/-- `calculate_entropy`: `0` when `k <= 0`, else `n * log2(k)`. -/
noncomputable def calculate_entropy (k : ℕ) (n : ℤ) : ℝ :=
  if k ≤ 0 then 0 else (n : ℝ) * Real.logb 2 (k : ℝ)

/-- `format_time`: buckets a duration in seconds into a human-readable
string; `render` stands for the numeric formatting (`.2e` / `.2f`), which
the source applies to the scaled quantity before appending the unit word. -/
noncomputable def format_time (render : ℝ → String) (seconds : ℝ) : String :=
  if seconds < 60 then render seconds ++ " seconds"
  else if seconds < 3600 then render (seconds / 60) ++ " minutes"
  else if seconds < 86400 then render (seconds / 3600) ++ " hours"
  else if seconds < 31536000 then render (seconds / 86400) ++ " days"
  else render (seconds / 31536000) ++ " years"

/-- The local `time_seconds` of `calculate_classical_crack_time`:
`combinations / self.classical_speed`. -/
noncomputable def classical_crack_seconds (combinations : ℚ) : ℝ :=
  (combinations : ℝ) / (classical_speed : ℝ)

/-- `calculate_classical_crack_time`: formats `time_seconds`. -/
noncomputable def calculate_classical_crack_time (render : ℝ → String)
    (combinations : ℚ) : String :=
  format_time render (classical_crack_seconds combinations)

/-- `classify_strength`: strength label and emoji from entropy. -/
noncomputable def classify_strength (entropy : ℝ) : String × String :=
  if entropy < 40 then ("WEAK", "🔴")
  else if entropy < 60 then ("MEDIUM", "🟡")
  else if entropy < 80 then ("STRONG", "🟢")
  else ("VERY STRONG", "🟢🟢")

/-- `apply_grovers_speedup`: `(sqrt N, N / sqrt N if sqrt N > 0 else 1)`. -/
noncomputable def apply_grovers_speedup (combinations : ℝ) : ℝ × ℝ :=
  (Real.sqrt combinations,
   if 0 < Real.sqrt combinations then combinations / Real.sqrt combinations else 1)

/-- The local `time_seconds` of `calculate_quantum_crack_time`:
`quantum_attempts / self.quantum_speed`. -/
noncomputable def quantum_crack_seconds (quantum_attempts : ℝ) : ℝ :=
  quantum_attempts / (quantum_speed : ℝ)

/-- `calculate_quantum_crack_time`: formats `time_seconds`. -/
noncomputable def calculate_quantum_crack_time (render : ℝ → String)
    (quantum_attempts : ℝ) : String :=
  format_time render (quantum_crack_seconds quantum_attempts)

/-- `assess_quantum_vulnerability`: keys off substrings of the formatted
quantum crack-time string (the classical string is accepted but unused). -/
def assess_quantum_vulnerability (classical_time_str quantum_time_str : String) :
    String :=
  if strContains quantum_time_str "second" || strContains quantum_time_str "minute" then
    "CRITICAL"
  else if strContains quantum_time_str "hour" || strContains quantum_time_str "day" then
    "HIGH"
  else if strContains quantum_time_str "year" then "MODERATE"
  else "LOW"

end QuantumPasswordAnalyzer

namespace QuantumAuthTool

/-- The constant `self.GUESSES_PER_SEC` — the single rate of this variant,
used for the classical and the quantum estimate alike. -/
def GUESSES_PER_SEC : ℕ := 10 ^ 8

/-- The `sets` dictionary computed by `detect_charsets`. -/
structure CharsetFlags where
  lowercase : Bool
  uppercase : Bool
  digits : Bool
  symbols : Bool
  whitespace : Bool
deriving DecidableEq, Repr

/-- `detect_charsets`: presence flags per class and the alphabet size,
floored at 1 via `max(alphabet_size, 1)`. -/
def detect_charsets (password : List Char) : CharsetFlags × ℕ :=
  let sets : CharsetFlags :=
    { lowercase := password.any isAsciiLowercaseChar
      uppercase := password.any isAsciiUppercaseChar
      digits := password.any isDigitCh
      symbols := password.any isPunctuationChar
      whitespace := password.any isWhitespaceChar }
  let alphabet_size :=
    (cond sets.lowercase 26 0) + (cond sets.uppercase 26 0) +
    (cond sets.digits 10 0) + (cond sets.symbols 32 0) +
    (cond sets.whitespace 1 0)
  (sets, max alphabet_size 1)

/-- `classify_security`: five strength labels from entropy. -/
noncomputable def classify_security (entropy : ℝ) : String :=
  if entropy < 40 then "Very Weak"
  else if entropy < 60 then "Weak"
  else if entropy < 80 then "Moderate"
  else if entropy < 128 then "Strong"
  else "Very Strong"

/-- `simulate_quantum_threat`: returns
`(sqrt N / GUESSES_PER_SEC, sqrt N if N > 0 else 1)`. -/
noncomputable def simulate_quantum_threat (N : ℝ) : ℝ × ℝ :=
  (Real.sqrt N / (GUESSES_PER_SEC : ℝ), if 0 < N then Real.sqrt N else 1)

/-- Character `n` of the standard base64 alphabet
(`A`–`Z`, `a`–`z`, `0`–`9`, `+`, `/`), as used by `base64.b64encode`. -/
def b64_char (n : ℕ) : Char :=
  if n < 26 then Char.ofNat (65 + n)
  else if n < 52 then Char.ofNat (97 + (n - 26))
  else if n < 62 then Char.ofNat (48 + (n - 52))
  else if n = 62 then Char.ofNat 43
  else Char.ofNat 47

/-- Index of a character in the standard base64 alphabet (decoding table). -/
def b64_index (c : Char) : ℕ :=
  if 65 ≤ c.toNat && c.toNat ≤ 90 then c.toNat - 65
  else if 97 ≤ c.toNat && c.toNat ≤ 122 then c.toNat - 97 + 26
  else if 48 ≤ c.toNat && c.toNat ≤ 57 then c.toNat - 48 + 52
  else if c.toNat = 43 then 62
  else 63

/-- `base64.b64encode` on a byte list: 3-byte chunks become 4 alphabet
characters; a trailing 1- or 2-byte chunk is padded with `=`. -/
def b64_encode : List ℕ → List Char
  | [] => []
  | [a] => [b64_char (a / 4), b64_char (a % 4 * 16), Char.ofNat 61, Char.ofNat 61]
  | [a, b] => [b64_char (a / 4), b64_char (a % 4 * 16 + b / 16),
               b64_char (b % 16 * 4), Char.ofNat 61]
  | a :: b :: c :: rest =>
      b64_char (a / 4) :: b64_char (a % 4 * 16 + b / 16) ::
      b64_char (b % 16 * 4 + c / 64) :: b64_char (c % 64) :: b64_encode rest

/-- Standard base64 decoding of the transport string back to bytes (the
inverse direction of the round-trip property stated by the spec; the
repository itself never decodes). -/
def b64_decode : List Char → List ℕ
  | c1 :: c2 :: c3 :: c4 :: rest =>
      if c3 = Char.ofNat 61 then
        [b64_index c1 * 4 + b64_index c2 / 16]
      else if c4 = Char.ofNat 61 then
        [b64_index c1 * 4 + b64_index c2 / 16,
         b64_index c2 % 16 * 16 + b64_index c3 / 4]
      else
        (b64_index c1 * 4 + b64_index c2 / 16) ::
        (b64_index c2 % 16 * 16 + b64_index c3 / 4) ::
        (b64_index c3 % 4 * 64 + b64_index c4) :: b64_decode rest
  | _ => []

/-- Python `int(bits, 2)` on a measured bit string. -/
def nat_of_bits (bits : List Bool) : ℕ :=
  bits.foldl (fun a b => a * 2 + cond b 1 0) 0

/-- Lowercase hexadecimal digit character for `d < 16`. -/
def hex_digit_char (d : ℕ) : Char :=
  if d < 10 then Char.ofNat (48 + d) else Char.ofNat (87 + d)

/-- Most-significant-first hexadecimal digit list, driven by a fuel bound
(structural recursion, so that concrete values reduce in the kernel). -/
def hex_digits_aux : ℕ → ℕ → List ℕ
  | 0, _ => []
  | fuel + 1, n =>
      if n < 16 then [n]
      else hex_digits_aux fuel (n / 16) ++ [n % 16]

/-- Most-significant-first hexadecimal digit list of `n` (`[0]` for `0`). -/
def hex_digits (n : ℕ) : List ℕ :=
  hex_digits_aux (n + 1) n

/-- Python `hex(n)` for a non-negative `n`: `0x` followed by lowercase
hexadecimal digits. -/
def hex_of_nat (n : ℕ) : String :=
  String.mk (Char.ofNat 48 :: Char.ofNat 120 :: (hex_digits n).map hex_digit_char)

/-- Numeric value of a lowercase hexadecimal digit character. -/
def hex_char_val (c : Char) : ℕ :=
  if 97 ≤ c.toNat then c.toNat - 87 else c.toNat - 48

/-- Horner evaluation of a base-16 digit list. -/
def hex_fold (l : List ℕ) : ℕ :=
  l.foldl (fun a d => a * 16 + d) 0

/-- Python `int(s, 16)` on a `0x`-prefixed fingerprint string (the key
recovery direction of the spec's round-trip property). -/
def nat_of_hex (s : String) : ℕ :=
  hex_fold ((s.toList.drop 2).map hex_char_val)

/-- `simulate_qkd_and_encrypt`: the measured bit string `key_bits` (the
single-shot outcome of the 8-qubit circuit, passed in as a parameter) is
read as an integer; each byte of the suggestion is XORed with
`key_int % 256`; the result is base64-encoded and paired with the hex key
fingerprint.  The suggestion is modelled as its encoded byte list. -/
def simulate_qkd_and_encrypt (suggestion : List ℕ) (key_bits : List Bool) :
    String × String :=
  let key_int := nat_of_bits key_bits
  let encrypted_bytes := suggestion.map (fun b => b ^^^ (key_int % 256))
  (String.mk (b64_encode encrypted_bytes), hex_of_nat key_int)

/-- `get_improvements`: the deterministic suggestion rule list. -/
noncomputable def get_improvements (password : List Char) (entropy : ℝ) :
    List String :=
  (if password.length < 12 then ["Increase length to at least 12 characters."] else []) ++
  (if password.any isDigitCh then [] else ["Include numbers (0-9)."]) ++
  (if password.any isPunctuationChar then [] else ["Add special symbols (e.g., @, #, $)."]) ++
  (if entropy < 60 then ["Current entropy is low; use a passphrase of 4+ random words."] else [])

/-- The report dictionary built by `analyze`.  The nested JSON layout is
flattened into named fields; `entropy_bits` holds the raw entropy value
(the source applies `round(·, 2)` only when placing it in the JSON, a
display concern). -/
structure V3Report where
  input_password : List Char
  length : ℕ
  charsets : CharsetFlags
  alphabet_size : ℕ
  combinations : ℕ
  entropy_bits : ℝ
  crack_time_seconds : ℝ
  quantum_crack_time_seconds : ℝ
  speedup_factor : ℝ
  security_classification : String
  suggestions : List String
  passphrase_suggestion : String
  random_suggestion : List ℕ
  quantum_ciphertext : String
  qkd_key_fingerprint : String

/-- The report dictionary that variant B's `analyze` builds on its
completing path.  `new_random` is the outcome of
`generate_random_password()` (as bytes) and `key_bits` the measured
quantum key bits; both are randomness parameters.  Referenced by
`analyze`, which models the overflow aborts reached before this value is
returned. -/
noncomputable def analyze_report (password : List Char) (new_random : List ℕ)
    (key_bits : List Bool) : V3Report :=
  let A := (detect_charsets password).2
  let L := password.length
  let N := A ^ L
  let entropy := (L : ℝ) * Real.logb 2 (A : ℝ)
  let c_time := (N : ℝ) / (GUESSES_PER_SEC : ℝ)
  { input_password := password
    length := L
    charsets := (detect_charsets password).1
    alphabet_size := A
    combinations := N
    entropy_bits := entropy
    crack_time_seconds := c_time
    quantum_crack_time_seconds := (simulate_quantum_threat (N : ℝ)).1
    speedup_factor := (simulate_quantum_threat (N : ℝ)).2
    security_classification := classify_security entropy
    suggestions := get_improvements password entropy
    passphrase_suggestion := "Correct-Horse-Battery-Staple"
    random_suggestion := new_random
    quantum_ciphertext := (simulate_qkd_and_encrypt new_random key_bits).1
    qkd_key_fingerprint := (simulate_qkd_and_encrypt new_random key_bits).2 }

/-- `analyze`: the entry point of variant B.  A report is produced only
while the numeric conversions stay in float range: the crack-time division
`c_time = N / self.GUESSES_PER_SEC` raises `OverflowError` when the exact
quotient reaches `float_overflow_threshold`, and the `math.sqrt(N)` inside
`simulate_quantum_threat` raises when `N` itself reaches it; Python
propagates either exception to the caller, modelled by `Except`.  On the
non-overflowing path the complete report `analyze_report` is returned. -/
noncomputable def analyze (password : List Char) (new_random : List ℕ)
    (key_bits : List Bool) : Except String V3Report :=
  let A := (detect_charsets password).2
  let L := password.length
  let N := A ^ L
  if float_overflow_threshold ≤ (N : ℚ) / (GUESSES_PER_SEC : ℚ) then
    .error "OverflowError: integer division result too large for a float"
  else if float_overflow_threshold ≤ (N : ℚ) then
    .error "OverflowError: int too large to convert to float"
  else .ok (analyze_report password new_random key_bits)

/-- The entry point returns the complete report whenever the search space
stays below the float-overflow threshold. -/
theorem analyze_ok_of_lt (password : List Char) (new_random : List ℕ)
    (key_bits : List Bool)
    (hN : (((detect_charsets password).2 ^ password.length : ℕ) : ℚ) <
      float_overflow_threshold) :
    analyze password new_random key_bits =
      Except.ok (analyze_report password new_random key_bits) := by
  have h0 : (0 : ℚ) ≤ (((detect_charsets password).2 ^ password.length : ℕ) : ℚ) :=
    Nat.cast_nonneg _
  have hdiv : (((detect_charsets password).2 ^ password.length : ℕ) : ℚ) /
      (GUESSES_PER_SEC : ℚ) < float_overflow_threshold :=
    lt_of_le_of_lt (div_le_self h0 (by norm_num [GUESSES_PER_SEC])) hN
  simp only [analyze, if_neg (not_le.mpr hdiv), if_neg (not_le.mpr hN)]

/-- The entry point aborts with an error once the search space reaches the
float-overflow threshold. -/
theorem analyze_isOk_false_of_le (password : List Char) (new_random : List ℕ)
    (key_bits : List Bool)
    (hN : float_overflow_threshold ≤
      (((detect_charsets password).2 ^ password.length : ℕ) : ℚ)) :
    (analyze password new_random key_bits).isOk = false := by
  by_cases h1 : float_overflow_threshold ≤
      (((detect_charsets password).2 ^ password.length : ℕ) : ℚ) /
        (GUESSES_PER_SEC : ℚ)
  · simp only [analyze, if_pos h1, Except.isOk, Except.toBool]
  · simp only [analyze, if_neg h1, if_pos hN, Except.isOk, Except.toBool]

end QuantumAuthTool

namespace QuantumPasswordAnalyzer

/-- `create_quantum_key`: builds a register of `min(length, 8)` qubits and
measures once.  The qiskit library rejects a register of negative size with a
`CircuitError`, modelled here as the `.error` branch; the measured bit string
(outcome of the single shot) is supplied as the `key_bits` parameter,
truncated to the register width. -/
def create_quantum_key (key_bits : List Bool) (length : ℤ) :
    Except String (List Bool) :=
  if min length 8 < 0 then .error "CircuitError: register size must be non-negative"
  else .ok (key_bits.take (min length 8).toNat)

/-- Zero-padded rendering of a natural below 10000 (Python format `04d`). -/
def format04 (n : ℕ) : String :=
  let s := toString n
  String.mk (List.replicate (4 - s.length) (Char.ofNat 48) ++ s.toList)

/-- Bit string rendering of the measured key, as qiskit returns it. -/
def bits_repr (bits : List Bool) : String :=
  String.mk (bits.map (fun b => cond b (Char.ofNat 49) (Char.ofNat 48)))

/-- `quantum_encrypt_password`: obtains the quantum key and forms the
display hash `QKD-<key>-<hash(key) % 10000>`.  Python's salted builtin
`hash` is a per-process random; its value is the `hash_val` parameter. -/
def quantum_encrypt_password (key_bits : List Bool) (hash_val : ℕ)
    (password_length : ℤ) : Except String (String × List Bool) :=
  match create_quantum_key key_bits password_length with
  | .error e => .error e
  | .ok quantum_key =>
      .ok ("QKD-" ++ bits_repr quantum_key ++ "-" ++ format04 (hash_val % 10000),
           quantum_key)

/-- The result dictionary returned by `analyze_password`. -/
structure AReport where
  length : ℤ
  charset_size : ℕ
  classical_combinations : ℚ
  entropy : ℝ
  classical_time : String
  quantum_attempts : ℝ
  quantum_time : String
  classical_strength : String
  quantum_vulnerability : String
  quantum_hash : String
  quantum_key : List Bool

/-- `analyze_password`: the full pipeline of variant A.  It has no length
validation of its own; its abort paths are the runtime errors of the
numeric operations and of the quantum library, in source order: `k ** n`
raises `ZeroDivisionError` for `k = 0` with negative `n`; the crack-time
division `combinations / self.classical_speed` raises `OverflowError` when
the exact quotient reaches `float_overflow_threshold`; the
`math.sqrt(combinations)` of the Grover step raises `OverflowError` when
`combinations` itself reaches it; and the quantum library rejects a
register of negative size `min(length, 8)`.  Python propagates each
exception to the caller, modelled by `Except`.  The console prints inside
the source function are presentation and not modelled; note that the `.2e`
print of `combinations` would raise at the same threshold as the `sqrt`
step (leaving the abort set unchanged), and that the `log2(k)` print would
raise `ValueError` for `k = 0` — the completion theorem below therefore
assumes `k ≥ 1`. -/
noncomputable def analyze_password (render : ℝ → String) (key_bits : List Bool)
    (hash_val : ℕ) (length : ℤ)
    (use_lowercase use_uppercase use_digits use_symbols : Bool) :
    Except String AReport :=
  let k := (calculate_charset_size use_lowercase use_uppercase use_digits use_symbols).1
  if k = 0 ∧ length < 0 then
    .error "ZeroDivisionError: 0.0 cannot be raised to a negative power"
  else
  let combinations := calculate_classical_combinations k length
  if float_overflow_threshold ≤ combinations / (classical_speed : ℚ) then
    .error "OverflowError: integer division result too large for a float"
  else if float_overflow_threshold ≤ combinations then
    .error "OverflowError: int too large to convert to float"
  else
  let entropy := calculate_entropy k length
  let classical_time := calculate_classical_crack_time render combinations
  let quantum_attempts := (apply_grovers_speedup (combinations : ℝ)).1
  let quantum_time := calculate_quantum_crack_time render quantum_attempts
  match quantum_encrypt_password key_bits hash_val length with
  | .error e => .error e
  | .ok pr =>
      .ok { length := length
            charset_size := k
            classical_combinations := combinations
            entropy := entropy
            classical_time := classical_time
            quantum_attempts := quantum_attempts
            quantum_time := quantum_time
            classical_strength := (classify_strength entropy).1
            quantum_vulnerability := assess_quantum_vulnerability classical_time quantum_time
            quantum_hash := pr.1
            quantum_key := pr.2 }

end QuantumPasswordAnalyzer

/-- Modelled from the spec: `combinations = alphabetSize^length` (§8), the
reference value the code-side computation is compared against. -/
def spec_combinations (alphabetSize length : ℕ) : ℕ :=
  alphabetSize ^ length

/-- Modelled from the spec: `entropyBits = length * log2(alphabetSize)`
(§8), the reference value the code-side computation is compared against. -/
noncomputable def spec_entropy_bits (alphabetSize length : ℕ) : ℝ :=
  (length : ℝ) * Real.logb 2 (alphabetSize : ℝ)

/-- Rank of a variant-A strength tier in the entropy order (used to state
monotonicity of the classifier). -/
def tier_rank (tier : String) : ℕ :=
  if tier = "WEAK" then 0
  else if tier = "MEDIUM" then 1
  else if tier = "STRONG" then 2
  else 3

/-- Rank of a variant-B strength tier in the entropy order. -/
def tier_rank_v3 (tier : String) : ℕ :=
  if tier = "Very Weak" then 0
  else if tier = "Weak" then 1
  else if tier = "Moderate" then 2
  else if tier = "Strong" then 3
  else 4

/-- Claim C10: the report record returned by variant B's `analyze` contains
the raw input password verbatim in its `input_password` field — stated both
over the report construction and over every report the fallible entry
point actually returns. -/
theorem claim_C10 :
    (∀ (password : List Char) (new_random : List ℕ) (key_bits : List Bool),
      (QuantumAuthTool.analyze_report password new_random key_bits).input_password =
        password) ∧
    (∀ (password : List Char) (new_random : List ℕ) (key_bits : List Bool)
        (r : QuantumAuthTool.V3Report),
      QuantumAuthTool.analyze password new_random key_bits = Except.ok r →
      r.input_password = password) := by
  refine ⟨fun _ _ _ => rfl, fun pw rnd kb r h => ?_⟩
  by_cases hN : float_overflow_threshold ≤
      (((QuantumAuthTool.detect_charsets pw).2 ^ pw.length : ℕ) : ℚ)
  · have hf := QuantumAuthTool.analyze_isOk_false_of_le pw rnd kb hN
    rw [h] at hf
    simp [Except.isOk, Except.toBool] at hf
  · have hok := QuantumAuthTool.analyze_ok_of_lt pw rnd kb (not_le.mp hN)
    rw [h] at hok
    injection hok with h2
    subst h2
    rfl

/-- Witness for C10 at the password `"a"`, whose analysis completes. -/
theorem claim_C10_witness :
    QuantumAuthTool.analyze ['a'] [] [] =
      Except.ok (QuantumAuthTool.analyze_report ['a'] [] []) ∧
    (QuantumAuthTool.analyze_report ['a'] [] []).input_password = ['a'] := by
  have h1 : ((QuantumAuthTool.detect_charsets ['a']).2 ^
      (['a'] : List Char).length : ℕ) = 26 := by decide
  have hN : (((QuantumAuthTool.detect_charsets ['a']).2 ^
      (['a'] : List Char).length : ℕ) : ℚ) < float_overflow_threshold := by
    rw [h1]
    norm_num [float_overflow_threshold]
  have h := QuantumAuthTool.analyze_ok_of_lt ['a'] [] [] hN
  exact ⟨h, claim_C10.2 ['a'] [] [] _ h⟩

/-- Claim C2 as stated is false: variant A's charset classifier
`calculate_charset_size` applies no floor, and with all four flags false it
returns alphabet size `0`, not a value `≥ 1`. -/
theorem claim_C2_counterexample :
    ¬ 1 ≤ (QuantumPasswordAnalyzer.calculate_charset_size false false false false).1 := by
  decide

/-- Claim C2 amended: variant B's `detect_charsets` always returns an
alphabet size of at least 1 (the empty password yields exactly 1), while
variant A's `calculate_charset_size` returns the plain sum, which is `0`
when every flag is false. -/
theorem claim_C2 :
    (∀ password : List Char, 1 ≤ (QuantumAuthTool.detect_charsets password).2) ∧
    (QuantumAuthTool.detect_charsets []).2 = 1 ∧
    (QuantumPasswordAnalyzer.calculate_charset_size false false false false).1 = 0 := by
  refine ⟨fun pw => ?_, rfl, rfl⟩
  exact le_max_right _ _

/-- Claim C1 as stated is false for variant B: on the password `"ab"`
(combinations `26^2 = 676`), the quantum crack time reported by `analyze`
is `sqrt 676 / 10^8`, not `sqrt 676 / 10^12`. -/
theorem claim_C1_counterexample :
    (QuantumAuthTool.analyze_report ['a', 'b'] [] []).quantum_crack_time_seconds ≠
      Real.sqrt (((QuantumAuthTool.analyze_report ['a', 'b'] [] []).combinations : ℕ) : ℝ) /
        (10 ^ 12 : ℝ) := by
  have hc : (QuantumAuthTool.analyze_report ['a', 'b'] [] []).combinations = 676 := rfl
  have hq : (QuantumAuthTool.analyze_report ['a', 'b'] [] []).quantum_crack_time_seconds =
      Real.sqrt ((676 : ℕ) : ℝ) / ((10 ^ 8 : ℕ) : ℝ) := rfl
  rw [hc, hq]
  have h26 : Real.sqrt ((676 : ℕ) : ℝ) = 26 := by
    rw [show ((676 : ℕ) : ℝ) = (26 : ℝ) ^ 2 by norm_num]
    exact Real.sqrt_sq (by norm_num)
  rw [h26]
  norm_num

/-- Claim C1 amended: variant A's quantum crack time is
`sqrt(combinations) / 10^12`, with the quantum rate `10^12` distinct from
the classical rate `10^8`; variant B instead divides `sqrt(combinations)`
by its single rate `10^8` — the same constant as its classical rate. -/
theorem claim_C1 :
    QuantumPasswordAnalyzer.quantum_speed = 10 ^ 12 ∧
    QuantumPasswordAnalyzer.classical_speed = 10 ^ 8 ∧
    QuantumPasswordAnalyzer.quantum_speed ≠ QuantumPasswordAnalyzer.classical_speed ∧
    (∀ c : ℚ,
      QuantumPasswordAnalyzer.quantum_crack_seconds
          ((QuantumPasswordAnalyzer.apply_grovers_speedup (c : ℝ)).1) =
        Real.sqrt (c : ℝ) / (10 ^ 12 : ℝ)) ∧
    QuantumAuthTool.GUESSES_PER_SEC = 10 ^ 8 ∧
    (∀ N : ℝ, (QuantumAuthTool.simulate_quantum_threat N).1 =
      Real.sqrt N / (10 ^ 8 : ℝ)) ∧
    (∀ (pw : List Char) (rnd : List ℕ) (kb : List Bool),
      (QuantumAuthTool.analyze_report pw rnd kb).quantum_crack_time_seconds =
        Real.sqrt (((QuantumAuthTool.analyze_report pw rnd kb).combinations : ℕ) : ℝ) /
          (10 ^ 8 : ℝ)) := by
  refine ⟨rfl, rfl, by decide, fun c => ?_, rfl, fun N => ?_, fun pw rnd kb => ?_⟩
  · simp only [QuantumPasswordAnalyzer.quantum_crack_seconds,
      QuantumPasswordAnalyzer.apply_grovers_speedup,
      QuantumPasswordAnalyzer.quantum_speed]
    norm_num
  · simp only [QuantumAuthTool.simulate_quantum_threat, QuantumAuthTool.GUESSES_PER_SEC]
    norm_num
  · have hc : (QuantumAuthTool.analyze_report pw rnd kb).combinations =
        (QuantumAuthTool.detect_charsets pw).2 ^ pw.length := rfl
    rw [hc]
    show (QuantumAuthTool.simulate_quantum_threat _).1 = _
    simp only [QuantumAuthTool.simulate_quantum_threat, QuantumAuthTool.GUESSES_PER_SEC]
    norm_num

/-- Claim C6: for positive combinations the speedup factor equals
`combinations / sqrt(combinations)`, which equals `sqrt(combinations)`, in
both variants; for combinations `= 0` both variants define it as `1`. -/
theorem claim_C6 :
    (∀ N : ℝ, 0 < N →
      (QuantumPasswordAnalyzer.apply_grovers_speedup N).2 = N / Real.sqrt N ∧
      (QuantumPasswordAnalyzer.apply_grovers_speedup N).2 = Real.sqrt N ∧
      (QuantumAuthTool.simulate_quantum_threat N).2 = Real.sqrt N) ∧
    (QuantumPasswordAnalyzer.apply_grovers_speedup 0).2 = 1 ∧
    (QuantumAuthTool.simulate_quantum_threat 0).2 = 1 := by
  refine ⟨fun N hN => ?_, ?_, ?_⟩
  · have hs : 0 < Real.sqrt N := Real.sqrt_pos.mpr hN
    refine ⟨?_, ?_, ?_⟩
    · show (if 0 < Real.sqrt N then N / Real.sqrt N else 1) = N / Real.sqrt N
      rw [if_pos hs]
    · show (if 0 < Real.sqrt N then N / Real.sqrt N else 1) = Real.sqrt N
      rw [if_pos hs, Real.div_sqrt]
    · show (if 0 < N then Real.sqrt N else 1) = Real.sqrt N
      rw [if_pos hN]
  · simp [QuantumPasswordAnalyzer.apply_grovers_speedup]
  · simp [QuantumAuthTool.simulate_quantum_threat]

/-- Witness for C6 at combinations `= 1`. -/
theorem claim_C6_witness :
    (0 : ℝ) < 1 ∧ (QuantumPasswordAnalyzer.apply_grovers_speedup 1).2 = Real.sqrt 1 :=
  ⟨one_pos, (claim_C6.1 1 one_pos).2.1⟩

/-- Claim C4: for `alphabetSize ≥ 1` and `length ≥ 0`, the computed
combinations equal `alphabetSize^length` exactly (arbitrary precision) and
the computed entropy equals `length * log2(alphabetSize)`, in both
variants. -/
theorem claim_C4 :
    (∀ (k n : ℕ), 1 ≤ k →
      QuantumPasswordAnalyzer.calculate_classical_combinations k (n : ℤ) =
        ((spec_combinations k n : ℕ) : ℚ) ∧
      QuantumPasswordAnalyzer.calculate_entropy k (n : ℤ) = spec_entropy_bits k n) ∧
    (∀ (pw : List Char) (rnd : List ℕ) (kb : List Bool),
      (QuantumAuthTool.analyze_report pw rnd kb).combinations =
        spec_combinations ((QuantumAuthTool.detect_charsets pw).2) pw.length ∧
      (QuantumAuthTool.analyze_report pw rnd kb).entropy_bits =
        spec_entropy_bits ((QuantumAuthTool.detect_charsets pw).2) pw.length) := by
  constructor
  · intro k n hk
    constructor
    · simp only [QuantumPasswordAnalyzer.calculate_classical_combinations,
        spec_combinations, zpow_natCast]
      push_cast
      ring
    · simp only [QuantumPasswordAnalyzer.calculate_entropy, spec_entropy_bits]
      rw [if_neg (by omega)]
      push_cast
      ring
  · intro pw rnd kb
    exact ⟨rfl, rfl⟩

/-- Witness for C4 at `alphabetSize = 2`, `length = 3`. -/
theorem claim_C4_witness :
    1 ≤ 2 ∧
    QuantumPasswordAnalyzer.calculate_classical_combinations 2 ((3 : ℕ) : ℤ) =
      ((spec_combinations 2 3 : ℕ) : ℚ) :=
  ⟨by decide, (claim_C4.1 2 3 (by decide)).1⟩

/-- Rank of variant A's classification as a step function of entropy. -/
theorem classify_strength_rank_eq (e : ℝ) :
    tier_rank (QuantumPasswordAnalyzer.classify_strength e).1 =
      if e < 40 then 0 else if e < 60 then 1 else if e < 80 then 2 else 3 := by
  simp only [QuantumPasswordAnalyzer.classify_strength]
  split_ifs <;> decide

/-- Rank of variant B's classification as a step function of entropy. -/
theorem classify_security_rank_eq (e : ℝ) :
    tier_rank_v3 (QuantumAuthTool.classify_security e) =
      if e < 40 then 0 else if e < 60 then 1 else if e < 80 then 2
      else if e < 128 then 3 else 4 := by
  simp only [QuantumAuthTool.classify_security]
  split_ifs <;> decide

/-- Claim C5: both strength classifiers are total (every real entropy is
assigned exactly one tier of the variant's enumeration), monotonic
non-decreasing in entropy, and follow the fixed breakpoints — variant A
`{40, 60, 80}` into 4 tiers, variant B `{40, 60, 80, 128}` into 5 tiers. -/
theorem claim_C5 :
    (∀ e : ℝ, (QuantumPasswordAnalyzer.classify_strength e).1 ∈
        ["WEAK", "MEDIUM", "STRONG", "VERY STRONG"] ∧
      QuantumAuthTool.classify_security e ∈
        ["Very Weak", "Weak", "Moderate", "Strong", "Very Strong"]) ∧
    (∀ e1 e2 : ℝ, e1 ≤ e2 →
      tier_rank (QuantumPasswordAnalyzer.classify_strength e1).1 ≤
        tier_rank (QuantumPasswordAnalyzer.classify_strength e2).1 ∧
      tier_rank_v3 (QuantumAuthTool.classify_security e1) ≤
        tier_rank_v3 (QuantumAuthTool.classify_security e2)) ∧
    (∀ e : ℝ,
      (e < 40 → (QuantumPasswordAnalyzer.classify_strength e).1 = "WEAK") ∧
      (40 ≤ e → e < 60 → (QuantumPasswordAnalyzer.classify_strength e).1 = "MEDIUM") ∧
      (60 ≤ e → e < 80 → (QuantumPasswordAnalyzer.classify_strength e).1 = "STRONG") ∧
      (80 ≤ e → (QuantumPasswordAnalyzer.classify_strength e).1 = "VERY STRONG")) ∧
    (∀ e : ℝ,
      (e < 40 → QuantumAuthTool.classify_security e = "Very Weak") ∧
      (40 ≤ e → e < 60 → QuantumAuthTool.classify_security e = "Weak") ∧
      (60 ≤ e → e < 80 → QuantumAuthTool.classify_security e = "Moderate") ∧
      (80 ≤ e → e < 128 → QuantumAuthTool.classify_security e = "Strong") ∧
      (128 ≤ e → QuantumAuthTool.classify_security e = "Very Strong")) := by
  refine ⟨fun e => ⟨?_, ?_⟩, fun e1 e2 h => ⟨?_, ?_⟩, fun e => ?_, fun e => ?_⟩
  · simp only [QuantumPasswordAnalyzer.classify_strength]
    split_ifs <;> decide
  · simp only [QuantumAuthTool.classify_security]
    split_ifs <;> decide
  · rw [classify_strength_rank_eq, classify_strength_rank_eq]
    split_ifs <;> first | decide | linarith
  · rw [classify_security_rank_eq, classify_security_rank_eq]
    split_ifs <;> first | decide | linarith
  · refine ⟨fun h1 => ?_, fun h1 h2 => ?_, fun h1 h2 => ?_, fun h1 => ?_⟩ <;>
      simp only [QuantumPasswordAnalyzer.classify_strength]
    · rw [if_pos h1]
    · rw [if_neg (not_lt.mpr h1), if_pos h2]
    · rw [if_neg (not_lt.mpr (by linarith)), if_neg (not_lt.mpr h1), if_pos h2]
    · rw [if_neg (not_lt.mpr (by linarith)), if_neg (not_lt.mpr (by linarith)),
        if_neg (not_lt.mpr h1)]
  · refine ⟨fun h1 => ?_, fun h1 h2 => ?_, fun h1 h2 => ?_, fun h1 h2 => ?_,
      fun h1 => ?_⟩ <;> simp only [QuantumAuthTool.classify_security]
    · rw [if_pos h1]
    · rw [if_neg (not_lt.mpr h1), if_pos h2]
    · rw [if_neg (not_lt.mpr (by linarith)), if_neg (not_lt.mpr h1), if_pos h2]
    · rw [if_neg (not_lt.mpr (by linarith)), if_neg (not_lt.mpr (by linarith)),
        if_neg (not_lt.mpr h1), if_pos h2]
    · rw [if_neg (not_lt.mpr (by linarith)), if_neg (not_lt.mpr (by linarith)),
        if_neg (not_lt.mpr (by linarith)), if_neg (not_lt.mpr h1)]

/-- Witness for C5: monotonicity applied at entropies `30 ≤ 100`. -/
theorem claim_C5_witness :
    (30 : ℝ) ≤ 100 ∧
    tier_rank (QuantumPasswordAnalyzer.classify_strength 30).1 ≤
      tier_rank (QuantumPasswordAnalyzer.classify_strength 100).1 :=
  ⟨by norm_num, (claim_C5.2.1 30 100 (by norm_num)).1⟩

/-- Claim C7 as stated is false: with alphabet size `0` (reachable in
variant A when every charset flag is false) and lengths `0 ≤ 1`, the
combinations drop from `0^0 = 1` to `0^1 = 0`. -/
theorem claim_C7_counterexample :
    (0 : ℤ) ≤ 1 ∧
    ¬ QuantumPasswordAnalyzer.calculate_classical_combinations 0 0 ≤
        QuantumPasswordAnalyzer.calculate_classical_combinations 0 1 := by
  refine ⟨by decide, fun h => ?_⟩
  simp only [QuantumPasswordAnalyzer.calculate_classical_combinations, zpow_zero,
    zpow_one, Nat.cast_zero] at h
  norm_num at h

/-- Claim C7 amended: for alphabet size `≥ 1` (the only sizes an actual
charset can produce once any class is present, and the domain the spec's
CombinatoricsEngine contract prescribes), entropy, combinations and both
crack-time estimates are monotone non-decreasing in the length. -/
theorem claim_C7 :
    ∀ (k n1 n2 : ℕ), 1 ≤ k → n1 ≤ n2 →
      QuantumPasswordAnalyzer.calculate_entropy k (n1 : ℤ) ≤
        QuantumPasswordAnalyzer.calculate_entropy k (n2 : ℤ) ∧
      QuantumPasswordAnalyzer.calculate_classical_combinations k (n1 : ℤ) ≤
        QuantumPasswordAnalyzer.calculate_classical_combinations k (n2 : ℤ) ∧
      QuantumPasswordAnalyzer.classical_crack_seconds
          (QuantumPasswordAnalyzer.calculate_classical_combinations k (n1 : ℤ)) ≤
        QuantumPasswordAnalyzer.classical_crack_seconds
          (QuantumPasswordAnalyzer.calculate_classical_combinations k (n2 : ℤ)) ∧
      QuantumPasswordAnalyzer.quantum_crack_seconds
          ((QuantumPasswordAnalyzer.apply_grovers_speedup
            ((QuantumPasswordAnalyzer.calculate_classical_combinations k (n1 : ℤ) : ℚ) : ℝ)).1) ≤
        QuantumPasswordAnalyzer.quantum_crack_seconds
          ((QuantumPasswordAnalyzer.apply_grovers_speedup
            ((QuantumPasswordAnalyzer.calculate_classical_combinations k (n2 : ℤ) : ℚ) : ℝ)).1) ∧
      (QuantumAuthTool.simulate_quantum_threat ((spec_combinations k n1 : ℕ) : ℝ)).1 ≤
        (QuantumAuthTool.simulate_quantum_threat ((spec_combinations k n2 : ℕ) : ℝ)).1 := by
  intro k n1 n2 hk h
  have hk1 : (1 : ℚ) ≤ (k : ℚ) := by exact_mod_cast hk
  have hcomb : QuantumPasswordAnalyzer.calculate_classical_combinations k (n1 : ℤ) ≤
      QuantumPasswordAnalyzer.calculate_classical_combinations k (n2 : ℤ) := by
    simp only [QuantumPasswordAnalyzer.calculate_classical_combinations, zpow_natCast]
    exact pow_le_pow_right₀ hk1 h
  have hcs : (0 : ℝ) < (QuantumPasswordAnalyzer.classical_speed : ℝ) := by
    norm_num [QuantumPasswordAnalyzer.classical_speed]
  have hqs : (0 : ℝ) < (QuantumPasswordAnalyzer.quantum_speed : ℝ) := by
    norm_num [QuantumPasswordAnalyzer.quantum_speed]
  have hg : (0 : ℝ) < (QuantumAuthTool.GUESSES_PER_SEC : ℝ) := by
    norm_num [QuantumAuthTool.GUESSES_PER_SEC]
  refine ⟨?_, hcomb, ?_, ?_, ?_⟩
  · simp only [QuantumPasswordAnalyzer.calculate_entropy]
    rw [if_neg (by omega), if_neg (by omega)]
    refine mul_le_mul_of_nonneg_right ?_
      (Real.logb_nonneg one_lt_two (by exact_mod_cast hk))
    exact_mod_cast h
  · exact (div_le_div_iff_of_pos_right hcs).mpr (by exact_mod_cast hcomb)
  · exact (div_le_div_iff_of_pos_right hqs).mpr (Real.sqrt_le_sqrt (by exact_mod_cast hcomb))
  · exact (div_le_div_iff_of_pos_right hg).mpr
      (Real.sqrt_le_sqrt (by exact_mod_cast Nat.pow_le_pow_right hk h))

/-- Witness for C7 at `k = 2`, lengths `1 ≤ 2`. -/
theorem claim_C7_witness :
    1 ≤ 2 ∧ (1 : ℕ) ≤ 2 ∧
    QuantumPasswordAnalyzer.calculate_classical_combinations 2 ((1 : ℕ) : ℤ) ≤
      QuantumPasswordAnalyzer.calculate_classical_combinations 2 ((2 : ℕ) : ℤ) :=
  ⟨by decide, by decide, (claim_C7 2 1 2 (by decide) (by decide)).2.1⟩

/-- The Python substring test distributes over appending on the left. -/
theorem strContains_append_right (r t pat : String)
    (h : strContains t pat = true) : strContains (r ++ t) pat = true := by
  have he : (r ++ t).toList = r.toList ++ t.toList := rfl
  rw [strContains, he]
  exact has_sub_append _ _ _ h

/-- If the quantum time string contains any of the five unit words, the
vulnerability assessment cannot be `LOW`. -/
theorem assess_mem_of_contains (c q : String)
    (h : strContains q "second" = true ∨ strContains q "minute" = true ∨
         strContains q "hour" = true ∨ strContains q "day" = true ∨
         strContains q "year" = true) :
    QuantumPasswordAnalyzer.assess_quantum_vulnerability c q ∈
      ["CRITICAL", "HIGH", "MODERATE"] := by
  simp only [QuantumPasswordAnalyzer.assess_quantum_vulnerability]
  split_ifs with h1 h2 h3
  · decide
  · decide
  · decide
  · simp only [Bool.or_eq_true, not_or] at h1 h2
    rcases h with h | h | h | h | h <;> simp_all

/-- Every string `format_time` produces carries one of the five unit
words. -/
theorem format_time_contains (render : ℝ → String) (s : ℝ) :
    strContains (QuantumPasswordAnalyzer.format_time render s) "second" = true ∨
    strContains (QuantumPasswordAnalyzer.format_time render s) "minute" = true ∨
    strContains (QuantumPasswordAnalyzer.format_time render s) "hour" = true ∨
    strContains (QuantumPasswordAnalyzer.format_time render s) "day" = true ∨
    strContains (QuantumPasswordAnalyzer.format_time render s) "year" = true := by
  simp only [QuantumPasswordAnalyzer.format_time]
  split_ifs
  · exact Or.inl (strContains_append_right _ " seconds" _ (by decide))
  · exact Or.inr (Or.inl (strContains_append_right _ " minutes" _ (by decide)))
  · exact Or.inr (Or.inr (Or.inl (strContains_append_right _ " hours" _ (by decide))))
  · exact Or.inr (Or.inr (Or.inr (Or.inl
      (strContains_append_right _ " days" _ (by decide)))))
  · exact Or.inr (Or.inr (Or.inr (Or.inr
      (strContains_append_right _ " years" _ (by decide)))))

/-- Claim C9: for every non-negative duration, variant A's `format_time`
output contains one of the substrings `second`, `minute`, `hour`, `day`,
`year`, and therefore `assess_quantum_vulnerability` on such a string is
always `CRITICAL`, `HIGH` or `MODERATE` — the `LOW` branch is unreachable
for `format_time` outputs. -/
theorem claim_C9 :
    ∀ (render : ℝ → String) (s : ℝ), 0 ≤ s →
      (strContains (QuantumPasswordAnalyzer.format_time render s) "second" = true ∨
       strContains (QuantumPasswordAnalyzer.format_time render s) "minute" = true ∨
       strContains (QuantumPasswordAnalyzer.format_time render s) "hour" = true ∨
       strContains (QuantumPasswordAnalyzer.format_time render s) "day" = true ∨
       strContains (QuantumPasswordAnalyzer.format_time render s) "year" = true) ∧
      ∀ cstr : String,
        QuantumPasswordAnalyzer.assess_quantum_vulnerability cstr
            (QuantumPasswordAnalyzer.format_time render s) ∈
          ["CRITICAL", "HIGH", "MODERATE"] :=
  fun render s _ =>
    ⟨format_time_contains render s,
     fun cstr => assess_mem_of_contains cstr _ (format_time_contains render s)⟩

/-- Witness for C9 at zero seconds with a concrete numeric rendering. -/
theorem claim_C9_witness :
    (0 : ℝ) ≤ 0 ∧
    QuantumPasswordAnalyzer.assess_quantum_vulnerability ""
        (QuantumPasswordAnalyzer.format_time (fun _ => "1.00e+00") 0) ∈
      ["CRITICAL", "HIGH", "MODERATE"] :=
  ⟨le_refl 0, (claim_C9 (fun _ => "1.00e+00") 0 (le_refl 0)).2 ""⟩

set_option maxRecDepth 20000 in
/-- Claim C8 as stated is false: there is no length ceiling and no
`InvalidLength` error.  A password of 1000 whitespace characters — far
beyond the "few hundred" ceiling the spec prescribes — has alphabet size 1
and search space 1, so variant B's entry point completes and returns a full
report for length 1000 instead of surfacing an error. -/
theorem claim_C8_counterexample :
    QuantumAuthTool.analyze (List.replicate 1000 (Char.ofNat 32)) [] [] =
      Except.ok (QuantumAuthTool.analyze_report
        (List.replicate 1000 (Char.ofNat 32)) [] []) ∧
    (QuantumAuthTool.analyze_report (List.replicate 1000 (Char.ofNat 32)) [] []).length =
      1000 := by
  have h1 : ((QuantumAuthTool.detect_charsets (List.replicate 1000 (Char.ofNat 32))).2 ^
      (List.replicate 1000 (Char.ofNat 32)).length : ℕ) = 1 := by decide
  have hN : (((QuantumAuthTool.detect_charsets (List.replicate 1000 (Char.ofNat 32))).2 ^
      (List.replicate 1000 (Char.ofNat 32)).length : ℕ) : ℚ) <
      float_overflow_threshold := by
    rw [h1]
    norm_num [float_overflow_threshold]
  refine ⟨QuantumAuthTool.analyze_ok_of_lt _ [] [] hN, ?_⟩
  have h : ∀ pw, (QuantumAuthTool.analyze_report pw [] []).length = pw.length :=
    fun _ => rfl
  rw [h, List.length_replicate]

/-- Claim C8 amended: neither variant implements a length check, a length
ceiling or a dedicated `InvalidLength` error.  The analyses do abort with a
propagated runtime error and no report (i) in variant A for every negative
length, and (ii) in both variants once the combinations value reaches the
float-overflow threshold (`OverflowError` from the crack-time division or
`math.sqrt`); below the threshold — which any alphabet of size `≤ 1`
satisfies at every length — a non-negative length always yields a complete
report. -/
theorem claim_C8 :
    (∀ (render : ℝ → String) (kb : List Bool) (hv : ℕ) (L : ℤ) (a b c d : Bool),
      L < 0 →
      (QuantumPasswordAnalyzer.analyze_password render kb hv L a b c d).isOk = false) ∧
    (∀ (render : ℝ → String) (kb : List Bool) (hv : ℕ) (L : ℤ) (a b c d : Bool),
      float_overflow_threshold ≤
        QuantumPasswordAnalyzer.calculate_classical_combinations
          (QuantumPasswordAnalyzer.calculate_charset_size a b c d).1 L →
      (QuantumPasswordAnalyzer.analyze_password render kb hv L a b c d).isOk = false) ∧
    (∀ (render : ℝ → String) (kb : List Bool) (hv : ℕ) (L : ℤ) (a b c d : Bool),
      0 ≤ L →
      1 ≤ (QuantumPasswordAnalyzer.calculate_charset_size a b c d).1 →
      QuantumPasswordAnalyzer.calculate_classical_combinations
          (QuantumPasswordAnalyzer.calculate_charset_size a b c d).1 L <
        float_overflow_threshold →
      (QuantumPasswordAnalyzer.analyze_password render kb hv L a b c d).isOk = true) ∧
    (∀ (pw : List Char) (rnd : List ℕ) (kb : List Bool),
      ((((QuantumAuthTool.detect_charsets pw).2 ^ pw.length : ℕ) : ℚ)) <
        float_overflow_threshold →
      QuantumAuthTool.analyze pw rnd kb =
        Except.ok (QuantumAuthTool.analyze_report pw rnd kb)) ∧
    (∀ (pw : List Char) (rnd : List ℕ) (kb : List Bool),
      float_overflow_threshold ≤
        ((((QuantumAuthTool.detect_charsets pw).2 ^ pw.length : ℕ) : ℚ)) →
      (QuantumAuthTool.analyze pw rnd kb).isOk = false) ∧
    (∀ (pw : List Char) (rnd : List ℕ) (kb : List Bool),
      (QuantumAuthTool.analyze_report pw rnd kb).length = pw.length) := by
  have hovf1 : (1 : ℚ) < float_overflow_threshold := by
    norm_num [float_overflow_threshold]
  refine ⟨fun render kb hv L a b c d hL => ?_,
    fun render kb hv L a b c d hov => ?_,
    fun render kb hv L a b c d hL hk hlt => ?_,
    fun pw rnd kb hN => ?_, fun pw rnd kb hN => ?_, fun _ _ _ => rfl⟩
  · by_cases hk : (QuantumPasswordAnalyzer.calculate_charset_size a b c d).1 = 0
    · simp only [QuantumPasswordAnalyzer.analyze_password, if_pos (And.intro hk hL),
        Except.isOk, Except.toBool]
    · have hk1 : (1 : ℚ) ≤
          ((QuantumPasswordAnalyzer.calculate_charset_size a b c d).1 : ℚ) := by
        exact_mod_cast Nat.one_le_iff_ne_zero.mpr hk
      have h0 : (0 : ℚ) ≤ QuantumPasswordAnalyzer.calculate_classical_combinations
          (QuantumPasswordAnalyzer.calculate_charset_size a b c d).1 L :=
        zpow_nonneg (by positivity) _
      have hle1 : QuantumPasswordAnalyzer.calculate_classical_combinations
          (QuantumPasswordAnalyzer.calculate_charset_size a b c d).1 L ≤ 1 := by
        simp only [QuantumPasswordAnalyzer.calculate_classical_combinations]
        exact zpow_le_one_of_nonpos₀ hk1 (by omega)
      have hltovf : QuantumPasswordAnalyzer.calculate_classical_combinations
          (QuantumPasswordAnalyzer.calculate_charset_size a b c d).1 L <
          float_overflow_threshold := lt_of_le_of_lt hle1 hovf1
      have hdiv : QuantumPasswordAnalyzer.calculate_classical_combinations
          (QuantumPasswordAnalyzer.calculate_charset_size a b c d).1 L /
          (QuantumPasswordAnalyzer.classical_speed : ℚ) < float_overflow_threshold :=
        lt_of_le_of_lt
          (div_le_self h0 (by norm_num [QuantumPasswordAnalyzer.classical_speed]))
          hltovf
      have hmin : min L 8 < 0 := by omega
      simp only [QuantumPasswordAnalyzer.analyze_password,
        QuantumPasswordAnalyzer.quantum_encrypt_password,
        QuantumPasswordAnalyzer.create_quantum_key,
        if_neg (fun hh => hk hh.1 : ¬ (_ ∧ L < 0)), if_neg (not_le.mpr hdiv),
        if_neg (not_le.mpr hltovf), if_pos hmin, Except.isOk, Except.toBool]
  · by_cases h1 : (QuantumPasswordAnalyzer.calculate_charset_size a b c d).1 = 0 ∧
        L < 0
    · simp only [QuantumPasswordAnalyzer.analyze_password, if_pos h1,
        Except.isOk, Except.toBool]
    · by_cases h2 : float_overflow_threshold ≤
          QuantumPasswordAnalyzer.calculate_classical_combinations
            (QuantumPasswordAnalyzer.calculate_charset_size a b c d).1 L /
            (QuantumPasswordAnalyzer.classical_speed : ℚ)
      · simp only [QuantumPasswordAnalyzer.analyze_password, if_neg h1, if_pos h2,
          Except.isOk, Except.toBool]
      · simp only [QuantumPasswordAnalyzer.analyze_password, if_neg h1, if_neg h2,
          if_pos hov, Except.isOk, Except.toBool]
  · have h0 : (0 : ℚ) ≤ QuantumPasswordAnalyzer.calculate_classical_combinations
        (QuantumPasswordAnalyzer.calculate_charset_size a b c d).1 L :=
      zpow_nonneg (by positivity) _
    have h1 : ¬ ((QuantumPasswordAnalyzer.calculate_charset_size a b c d).1 = 0 ∧
        L < 0) := by
      rintro ⟨-, hneg⟩
      omega
    have hdiv : QuantumPasswordAnalyzer.calculate_classical_combinations
        (QuantumPasswordAnalyzer.calculate_charset_size a b c d).1 L /
        (QuantumPasswordAnalyzer.classical_speed : ℚ) < float_overflow_threshold :=
      lt_of_le_of_lt
        (div_le_self h0 (by norm_num [QuantumPasswordAnalyzer.classical_speed])) hlt
    have hmin : ¬ min L 8 < 0 := by omega
    simp only [QuantumPasswordAnalyzer.analyze_password,
      QuantumPasswordAnalyzer.quantum_encrypt_password,
      QuantumPasswordAnalyzer.create_quantum_key, if_neg h1,
      if_neg (not_le.mpr hdiv), if_neg (not_le.mpr hlt), if_neg hmin,
      Except.isOk, Except.toBool]
  · exact QuantumAuthTool.analyze_ok_of_lt pw rnd kb hN
  · exact QuantumAuthTool.analyze_isOk_false_of_le pw rnd kb hN

/-- Witness for C8: length `-1` aborts variant A; length `6` over the
lowercase alphabet stays below the overflow threshold and completes. -/
theorem claim_C8_witness :
    ((-1 : ℤ) < 0 ∧
      (QuantumPasswordAnalyzer.analyze_password (fun _ => "") [] 0 (-1)
          true true true false).isOk = false) ∧
    ((0 : ℤ) ≤ 6 ∧
      1 ≤ (QuantumPasswordAnalyzer.calculate_charset_size true false false false).1 ∧
      QuantumPasswordAnalyzer.calculate_classical_combinations
          (QuantumPasswordAnalyzer.calculate_charset_size true false false false).1 6 <
        float_overflow_threshold ∧
      (QuantumPasswordAnalyzer.analyze_password (fun _ => "") [] 0 6
          true false false false).isOk = true) := by
  have hneg : (-1 : ℤ) < 0 := by decide
  have hL : (0 : ℤ) ≤ 6 := by decide
  have hk : 1 ≤ (QuantumPasswordAnalyzer.calculate_charset_size
      true false false false).1 := by decide
  have h26 : (QuantumPasswordAnalyzer.calculate_charset_size
      true false false false).1 = 26 := rfl
  have hlt : QuantumPasswordAnalyzer.calculate_classical_combinations
      (QuantumPasswordAnalyzer.calculate_charset_size true false false false).1 6 <
      float_overflow_threshold := by
    rw [h26]
    simp only [QuantumPasswordAnalyzer.calculate_classical_combinations]
    norm_num [float_overflow_threshold]
  exact ⟨⟨hneg, claim_C8.1 _ _ _ _ _ _ _ _ hneg⟩,
    ⟨hL, hk, hlt, claim_C8.2.2.1 _ _ _ _ _ _ _ _ hL hk hlt⟩⟩

/-- Unfolding `String.mk` to its character list. -/
theorem toList_mk (l : List Char) : (String.mk l).toList = l := rfl

namespace QuantumAuthTool

/-- The base64 decoding table inverts the encoding table on `0 ≤ n < 64`. -/
theorem b64_index_b64_char : ∀ n : ℕ, n < 64 → b64_index (b64_char n) = n := by
  decide

/-- No base64 alphabet character is the padding character `=`. -/
theorem b64_char_ne_pad : ∀ n : ℕ, n < 64 → b64_char n ≠ Char.ofNat 61 := by
  decide

/-- Base64 decoding inverts base64 encoding on byte lists. -/
theorem b64_decode_encode :
    ∀ l : List ℕ, (∀ b ∈ l, b < 256) → b64_decode (b64_encode l) = l
  | [], _ => rfl
  | [a], h => by
      have ha : a < 256 := h a (by simp)
      have h1 : a / 4 < 64 := by omega
      have h2 : a % 4 * 16 < 64 := by omega
      simp only [b64_encode, b64_decode]
      rw [if_pos trivial, b64_index_b64_char _ h1, b64_index_b64_char _ h2]
      have e1 : a / 4 * 4 + a % 4 * 16 / 16 = a := by omega
      rw [e1]
  | [a, b], h => by
      have ha : a < 256 := h a (by simp)
      have hb : b < 256 := h b (by simp)
      have h1 : a / 4 < 64 := by omega
      have h2 : a % 4 * 16 + b / 16 < 64 := by omega
      have h3 : b % 16 * 4 < 64 := by omega
      simp only [b64_encode, b64_decode]
      rw [if_neg (b64_char_ne_pad _ h3), if_pos trivial, b64_index_b64_char _ h1,
        b64_index_b64_char _ h2, b64_index_b64_char _ h3]
      have e1 : a / 4 * 4 + (a % 4 * 16 + b / 16) / 16 = a := by omega
      have e2 : (a % 4 * 16 + b / 16) % 16 * 16 + b % 16 * 4 / 4 = b := by omega
      rw [e1, e2]
  | a :: b :: c :: rest, h => by
      have ha : a < 256 := h a (by simp)
      have hb : b < 256 := h b (by simp)
      have hc : c < 256 := h c (by simp)
      have h1 : a / 4 < 64 := by omega
      have h2 : a % 4 * 16 + b / 16 < 64 := by omega
      have h3 : b % 16 * 4 + c / 64 < 64 := by omega
      have h4 : c % 64 < 64 := by omega
      have ih := b64_decode_encode rest (fun x hx => h x (by simp [hx]))
      simp only [b64_encode, b64_decode]
      rw [if_neg (b64_char_ne_pad _ h3), if_neg (b64_char_ne_pad _ h4),
        b64_index_b64_char _ h1, b64_index_b64_char _ h2, b64_index_b64_char _ h3,
        b64_index_b64_char _ h4, ih]
      have e1 : a / 4 * 4 + (a % 4 * 16 + b / 16) / 16 = a := by omega
      have e2 : (a % 4 * 16 + b / 16) % 16 * 16 + (b % 16 * 4 + c / 64) / 4 = b := by
        omega
      have e3 : (b % 16 * 4 + c / 64) % 4 * 64 + c % 64 = c := by omega
      rw [e1, e2, e3]

/-- Every digit produced by `hex_digits_aux` is below 16. -/
theorem hex_digits_aux_lt :
    ∀ (fuel n : ℕ), ∀ d ∈ hex_digits_aux fuel n, d < 16
  | 0, n => by simp [hex_digits_aux]
  | fuel + 1, n => by
      intro d hd
      by_cases h16 : n < 16
      · simp only [hex_digits_aux, if_pos h16, List.mem_singleton] at hd
        omega
      · simp only [hex_digits_aux, if_neg h16, List.mem_append,
          List.mem_singleton] at hd
        rcases hd with hd | hd
        · exact hex_digits_aux_lt fuel (n / 16) d hd
        · omega

/-- Horner evaluation recovers the value from its hexadecimal digits. -/
theorem hex_fold_digits_aux :
    ∀ (fuel n : ℕ), n < fuel → hex_fold (hex_digits_aux fuel n) = n
  | 0, n, h => absurd h (by omega)
  | fuel + 1, n, h => by
      by_cases h16 : n < 16
      · simp only [hex_digits_aux, if_pos h16, hex_fold, List.foldl_cons,
          List.foldl_nil]
        omega
      · have hrec : n / 16 < fuel := by omega
        have ih := hex_fold_digits_aux fuel (n / 16) hrec
        simp only [hex_fold] at ih
        simp only [hex_digits_aux, if_neg h16, hex_fold, List.foldl_append,
          List.foldl_cons, List.foldl_nil]
        rw [ih]
        omega

/-- The hexadecimal character table inverts on digits below 16. -/
theorem hex_char_val_digit :
    ∀ d : ℕ, d < 16 → hex_char_val (hex_digit_char d) = d := by
  decide

/-- Parsing the hex fingerprint recovers the key integer (`int(hex(n), 16)`
round-trip). -/
theorem nat_of_hex_hex_of_nat (n : ℕ) : nat_of_hex (hex_of_nat n) = n := by
  simp only [nat_of_hex, hex_of_nat, toList_mk, List.drop_succ_cons,
    List.drop_zero, List.map_map]
  have hcong : ∀ d ∈ hex_digits n, (hex_char_val ∘ hex_digit_char) d = d :=
    fun d hd => hex_char_val_digit d (hex_digits_aux_lt _ _ d hd)
  rw [List.map_congr_left hcong, List.map_id']
  exact hex_fold_digits_aux (n + 1) n (by omega)

end QuantumAuthTool

/-- Claim C3: decrypting — XOR-ing each byte of the base64-decoded
ciphertext with `keyInteger mod 256`, the key integer recovered from the
hex fingerprint — returns exactly the plaintext replacement password, for
every password byte list and every measured key. -/
theorem claim_C3 :
    ∀ (suggestion : List ℕ) (key_bits : List Bool),
      (∀ b ∈ suggestion, b < 256) →
      (QuantumAuthTool.b64_decode
          ((QuantumAuthTool.simulate_qkd_and_encrypt suggestion key_bits).1.toList)).map
        (fun b => b ^^^
          QuantumAuthTool.nat_of_hex
              ((QuantumAuthTool.simulate_qkd_and_encrypt suggestion key_bits).2) % 256) =
      suggestion := by
  intro suggestion key_bits h
  have hbound : ∀ x ∈ suggestion.map
      (fun b => b ^^^ QuantumAuthTool.nat_of_bits key_bits % 256), x < 256 := by
    intro x hx
    simp only [List.mem_map] at hx
    obtain ⟨b, hb, rfl⟩ := hx
    have h1 : b < 2 ^ 8 := by have := h b hb; omega
    have h2 : QuantumAuthTool.nat_of_bits key_bits % 256 < 2 ^ 8 := by
      have := Nat.mod_lt (QuantumAuthTool.nat_of_bits key_bits)
        (show 0 < 256 by omega)
      omega
    have := Nat.xor_lt_two_pow h1 h2
    omega
  simp only [QuantumAuthTool.simulate_qkd_and_encrypt, toList_mk,
    QuantumAuthTool.nat_of_hex_hex_of_nat]
  rw [QuantumAuthTool.b64_decode_encode _ hbound, List.map_map]
  have hcong : ∀ b ∈ suggestion,
      ((fun x => x ^^^ QuantumAuthTool.nat_of_bits key_bits % 256) ∘
        (fun x => x ^^^ QuantumAuthTool.nat_of_bits key_bits % 256)) b = b := by
    intro b _
    simp only [Function.comp_apply]
    rw [Nat.xor_assoc, Nat.xor_self, Nat.xor_zero]
  rw [List.map_congr_left hcong, List.map_id']

/-- Witness for C3 on the bytes of `"Hi!"` and the measured key `1011`. -/
theorem claim_C3_witness :
    (∀ b ∈ ([72, 105, 33] : List ℕ), b < 256) ∧
    (QuantumAuthTool.b64_decode
        ((QuantumAuthTool.simulate_qkd_and_encrypt [72, 105, 33]
          [true, false, true, true]).1.toList)).map
      (fun b => b ^^^
        QuantumAuthTool.nat_of_hex
            ((QuantumAuthTool.simulate_qkd_and_encrypt [72, 105, 33]
              [true, false, true, true]).2) % 256) =
      [72, 105, 33] :=
  ⟨by decide, claim_C3 _ _ (by decide)⟩
